import Mathlib

/-!
Verification of the business-data generator and the bronze/silver/gold
pipeline of the `cegeka-caseStudy` repository (`src/demo3/data/generator.py`
and `src/demo3/pages/5_Demo.py`).

Modelling conventions:
* money amounts are rationals (`ℚ`); Python's `round(x, 2)` is `round2`;
* dates are day numbers (`ℤ`); a `timedelta(days = n)` is integer addition;
* nullable columns (`None` / `NaN` / `NaT`) are `Option` values; pandas
  comparisons involving a missing value yield `False`, which the predicates
  below reproduce explicitly;
* the random draws of the generator are explicit parameters, constrained by
  hypotheses to the ranges the Python code draws them from.
-/

namespace CaseStudy

/-- Python's `round(x, 2)`: round to two decimal places. -/
def round2 (x : ℚ) : ℚ := ((round (100 * x) : ℤ) : ℚ) / 100

/-! ### Generator: order items (`BusinessDataGenerator.generate_order_items`) -/

/-- One generated order-item row (the fields stored at generator.py:182-189). -/
structure OrderItem where
  order_id : String
  product_id : String
  quantity : ℕ
  unit_price : ℚ
  discount : ℚ
  line_total : ℚ
deriving DecidableEq, Repr

/-- The random draws of one iteration of the item loop (generator.py:174-180):
`quantity = random.randint(1, 10)`, `discount = random.choice([0,0,0,0.05,0.1])`,
and, with probability `error_rate`, a price-noise factor
`unit_price *= (1 + random.uniform(-0.1, 0.1))` (`noise = some f` with
`f ∈ [-1/10, 1/10]`; `noise = none` when the branch is not taken). -/
structure ItemDraw where
  quantity : ℕ
  discount : ℚ
  noise : Option ℚ
deriving DecidableEq, Repr

/-- The unit price actually used in the computation: the master price,
multiplied by `(1 + f)` when price noise was drawn (generator.py:179-180). -/
def effectivePrice (basePrice : ℚ) (d : ItemDraw) : ℚ :=
  match d.noise with
  | none => basePrice
  | some f => basePrice * (1 + f)

/-- generator.py:182-189: the stored row.  `unit_price` is stored rounded
(`round(unit_price, 2)`) while `line_total` is computed from the unrounded
`unit_price` variable (`round(quantity * unit_price * (1 - discount), 2)`). -/
def mkOrderItem (oid pid : String) (basePrice : ℚ) (d : ItemDraw) : OrderItem :=
  let p := effectivePrice basePrice d
  { order_id := oid
    product_id := pid
    quantity := d.quantity
    unit_price := round2 p
    discount := d.discount
    line_total := round2 ((d.quantity : ℚ) * p * (1 - d.discount)) }

/-! ### Generator: financial transactions
(`BusinessDataGenerator.generate_financial_transactions`) -/

/-- generator.py:208-210: the fixed payment-terms dictionary
`{'Net30': 30, 'Net45': 45, 'Net60': 60, 'Immediate': 0}`. -/
def termDaysMap : List (String × ℕ) :=
  [("Net30", 30), ("Net45", 45), ("Net60", 60), ("Immediate", 0)]

/-- Dictionary lookup `{...}[order['payment_terms']]`; `none` models the
`KeyError` raised on a key outside the dictionary. -/
def termDays (t : String) : Option ℕ :=
  (termDaysMap.find? (fun p => p.1 = t)).map (fun p => p.2)

/-- The random draws shaping one transaction's dates (generator.py:213-230):
`shiftDays` is the forward invoice shift (`random.randint(1, 5)` when the
probability-0.3 branch is taken, `0` otherwise); `delay` is the payment delay
`random.choice([0, 0, 0, 5, 10, 15, 30])`; `splitExtra` is the extra
`random.randint(1, 10)` days on the second record of a split (`0` for the
first record and for unsplit transactions). -/
structure FTDraw where
  shiftDays : ℕ
  delay : ℕ
  splitExtra : ℕ
deriving DecidableEq, Repr

/-- The three dates of a generated transaction, as
(invoice_date, due_date, payment_date), from generator.py:207-230:
`due_date` is computed from the invoice date BEFORE the forward shift is
applied to `invoice_date`, and is not recomputed afterwards;
`payment_date = due_date + delay (+ splitExtra for the second split record)`. -/
def ftDates (orderDate : ℤ) (term : ℕ) (d : FTDraw) : ℤ × ℤ × ℤ :=
  let due := orderDate + (term : ℤ)
  let invoice := orderDate + (d.shiftDays : ℤ)
  let payment := due + (d.delay : ℤ) + (d.splitExtra : ℤ)
  (invoice, due, payment)

/-- generator.py:228-229, the split branch: `split_ratio = random.uniform(0.3, 0.7)`,
`amounts = [amount * split_ratio, amount * (1 - split_ratio)]`, each stored as
`round(split_amount, 2)`. -/
def splitAmounts (amount ratio : ℚ) : ℚ × ℚ :=
  (round2 (amount * ratio), round2 (amount * (1 - ratio)))

/-! ### Generator: customers and sales orders
(`BusinessDataGenerator._generate_customer_master_data`,
`BusinessDataGenerator.generate_sales_orders`) -/

/-- generator.py:17-18: the fixed choice lists. -/
def paymentTermsChoices : List String := ["Net30", "Net60", "Immediate", "Net45"]

def departmentsChoices : List String :=
  ["Vertrieb", "IT", "HR", "Finanzen", "Einkauf", "Produktion"]

/-- The fields of a generated customer used by order generation
(generator.py:91-108); `payment_terms` and `department` are always drawn
from the fixed lists and are never nulled by the fault branch (which nulls
only email/phone/credit_limit). -/
structure CustomerRow where
  customer_id : String
  address : String
  city : String
  postal_code : String
  payment_terms : String
  department : String
deriving DecidableEq, Repr

/-- A sales-order row with the columns the pipeline and the claims use.
Nullable columns are `Option`s; `order_date` is a day number (`none` = `NaT`). -/
structure SalesOrderRow where
  order_id : String
  customer_id : Option String
  order_date : Option ℤ
  payment_terms : Option String
  department : Option String
  shipping_address : Option String
deriving DecidableEq, Repr

/-- generator.py:124-153: one generated order.  When the fault branch fires
(`faultCustomer = true`, probability `error_rate * 0.5`), `customer_id` and
the shipping fields are nulled; `payment_terms` and `department` are copied
from the sampled customer unconditionally, and `order_date` is always set. -/
def mkSalesOrder (c : CustomerRow) (faultCustomer : Bool) (oid : String)
    (orderDate : ℤ) : SalesOrderRow :=
  { order_id := oid
    customer_id := if faultCustomer then none else some c.customer_id
    order_date := some orderDate
    payment_terms := some c.payment_terms
    department := some c.department
    shipping_address := if faultCustomer then none else some c.address }

/-! ### Pipeline rows for the remaining validated / aggregated sources -/

/-- An order-item row as seen by the pipeline (merge key, measure, and the
product reference). `line_total` is `Option` because the CSV cell can be
missing (`NaN`), which pandas `sum` skips. -/
structure OrderItemRow where
  order_id : String
  product_id : Option String
  line_total : Option ℚ
deriving DecidableEq, Repr

/-- A financial-transaction row with the columns the Silver predicate reads. -/
structure FinTxRow where
  transaction_id : String
  order_id : Option String
  invoice_date : Option ℤ
  payment_date : Option ℤ
  amount : Option ℚ
deriving DecidableEq, Repr

/-- An inventory-transaction row with the columns the Gold stage reads. -/
structure InvTxRow where
  transaction_id : String
  product_id : Option String
  quantity : Option ℚ
  transaction_date : Option ℤ
deriving DecidableEq, Repr

/-- A product master row with the columns the Gold stage reads. -/
structure ProductRow where
  product_id : String
  name : String
  category : String
deriving DecidableEq, Repr

/-! ### Silver stage (`DataPipeline.process_to_silver`, 5_Demo.py:99-161) -/

/-- 5_Demo.py:112-116: the `invalid_mask` for `sales_orders`:
`order_date.isna() | customer_id.isna() | (order_date > pd.Timestamp.now())`.
A comparison against `NaT` is `False` in pandas, as in the `match`. -/
def soInvalid (now : ℤ) (r : SalesOrderRow) : Bool :=
  r.order_date.isNone || r.customer_id.isNone ||
    (match r.order_date with
     | some d => decide (now < d)
     | none => false)

/-- 5_Demo.py:122-126: the `invalid_mask` for `financial_transactions`:
`(payment_date < invoice_date) | amount.isna() | (amount <= 0)`.
Comparisons involving `NaT`/`NaN` are `False` in pandas. -/
def ftInvalid (r : FinTxRow) : Bool :=
  (match r.payment_date, r.invoice_date with
   | some p, some i => decide (p < i)
   | _, _ => false) ||
  r.amount.isNone ||
    (match r.amount with
     | some a => decide (a ≤ 0)
     | none => false)

/-- One source's Silver output: the valid partition (`df = df[~invalid_mask]`),
the invalid partition (`df[invalid_mask]`), and the recorded
`validation_rate` metadata field. -/
structure SilverEntry (α : Type) where
  valid : List α
  invalid : List α
  validation_rate : ℚ
deriving DecidableEq, Repr

/-- 5_Demo.py:103-140 for one source: partition the bronze rows by the
source's invalid-mask predicate and record
`validation_rate = len(df) / len(bronze_data['data']) * 100`.  When the bronze
table is empty this division is `0 / 0`: Python raises `ZeroDivisionError`,
which the `except` clause logs and re-raises, aborting the stage — modelled
as `Except.error`. -/
def processSource {α : Type} (pred : α → Bool) (bronze : List α) :
    Except String (SilverEntry α) :=
  let valid := bronze.filter (fun r => !(pred r))
  let invalid := bronze.filter pred
  if bronze.length = 0 then
    Except.error "ZeroDivisionError"
  else
    Except.ok
      { valid := valid
        invalid := invalid
        validation_rate := (valid.length : ℚ) / (bronze.length : ℚ) * 100 }

/-- The Bronze layer restricted to the row contents (the part of
`bronze_layer[source]['data']` that downstream stages read); a `none` field
means the source was not ingested. -/
structure BronzeLayer where
  sales_orders : Option (List SalesOrderRow) := none
  order_items : Option (List OrderItemRow) := none
  financial_transactions : Option (List FinTxRow) := none
  inventory_transactions : Option (List InvTxRow) := none
  products : Option (List ProductRow) := none
  customers : Option (List CustomerRow) := none
deriving DecidableEq, Repr

/-- The Silver layer: per present source, its valid/invalid partition and
validation rate. -/
structure SilverLayer where
  sales_orders : Option (SilverEntry SalesOrderRow) := none
  order_items : Option (SilverEntry OrderItemRow) := none
  financial_transactions : Option (SilverEntry FinTxRow) := none
  inventory_transactions : Option (SilverEntry InvTxRow) := none
  products : Option (SilverEntry ProductRow) := none
  customers : Option (SilverEntry CustomerRow) := none
deriving DecidableEq, Repr

/-- Process one optional source; an absent source stays absent. -/
def processOpt {α : Type} (pred : α → Bool) :
    Option (List α) → Except String (Option (SilverEntry α))
  | none => Except.ok none
  | some l => (processSource pred l).map some

/-- 5_Demo.py:99-161: the Silver stage over all sources.  `sales_orders` and
`financial_transactions` get their validation predicates (`now` is the
`pd.Timestamp.now()` read inside the `sales_orders` mask); every other source
passes through with an empty invalid partition.  An error on any source
aborts the whole stage (the `except` re-raises). -/
def processToSilver (now : ℤ) (b : BronzeLayer) : Except String SilverLayer := do
  let so ← processOpt (soInvalid now) b.sales_orders
  let oi ← processOpt (fun _ => false) b.order_items
  let ft ← processOpt ftInvalid b.financial_transactions
  let inv ← processOpt (fun _ => false) b.inventory_transactions
  let pr ← processOpt (fun _ => false) b.products
  let cu ← processOpt (fun _ => false) b.customers
  Except.ok
    { sales_orders := so, order_items := oi, financial_transactions := ft
      inventory_transactions := inv, products := pr, customers := cu }

/-! ### Gold stage (`DataPipeline.process_to_gold`, 5_Demo.py:163-207) -/

/-- Sum of a column with pandas `sum` semantics: missing values are skipped,
and an all-missing (or empty) column sums to `0`. -/
def optSum (l : List (Option ℚ)) : ℚ := (l.filterMap id).sum

/-- 5_Demo.py:176-180: `sales_orders.merge(order_items, on='order_id',
how='left')`.  Every order row appears; orders with no matching item keep one
row with missing item columns; each matching item yields one joined row. -/
def leftJoinRows (orders : List SalesOrderRow) (items : List OrderItemRow) :
    List (SalesOrderRow × Option OrderItemRow) :=
  orders.flatMap (fun o =>
    let ms := items.filter (fun it => it.order_id = o.order_id)
    if ms.isEmpty then [(o, none)] else ms.map (fun it => (o, some it)))

/-- The `line_total` column of a joined row (missing for unmatched orders). -/
def joinedLineTotal (r : SalesOrderRow × Option OrderItemRow) : Option ℚ :=
  r.2.bind (fun it => it.line_total)

/-- 5_Demo.py:183-188: group the joined rows by `department` (pandas drops
rows whose group key is missing), and per department record
`order_count = count('order_id')` (no `order_id` is missing in a left join
from `sales_orders`, so the count is the group size) and
`total_sales = sum('line_total')`. -/
def salesMetrics (orders : List SalesOrderRow) (items : List OrderItemRow) :
    List (String × ℕ × ℚ) :=
  let rows := leftJoinRows orders items
  let depts := (rows.filterMap (fun r => r.1.department)).dedup
  depts.map (fun d =>
    let grp := rows.filter (fun r => r.1.department = some d)
    (d, grp.length, optSum (grp.map joinedLineTotal)))

/-- One row of the Gold `inventory_status` view. -/
structure InvStatusRow where
  product_id : String
  quantity : ℚ
  last_transaction_date : Option ℤ
  name : Option String
  category : Option String
deriving DecidableEq, Repr

/-- pandas `max` over an optional date column: missing values are skipped. -/
def optMax (l : List (Option ℤ)) : Option ℤ :=
  (l.filterMap id).max?

/-- 5_Demo.py:196-205: group `inventory_transactions` by `product_id`
(missing keys dropped), compute `{'quantity': 'sum', 'transaction_date':
'max'}`, then left-join onto `products[['product_id', 'name', 'category']]`
(first matching product supplies name/category; no match leaves them
missing). -/
def inventoryStatus (inv : List InvTxRow) (products : List ProductRow) :
    List InvStatusRow :=
  let pids := (inv.filterMap (fun r => r.product_id)).dedup
  pids.map (fun pid =>
    let grp := inv.filter (fun r => r.product_id = some pid)
    let prod := products.find? (fun p => p.product_id = pid)
    { product_id := pid
      quantity := optSum (grp.map (fun r => r.quantity))
      last_transaction_date := optMax (grp.map (fun r => r.transaction_date))
      name := prod.map (fun p => p.name)
      category := prod.map (fun p => p.category) })

/-- The Gold layer: each view is present only when its guard passed. -/
structure GoldLayer where
  sales_metrics : Option (List (String × ℕ × ℚ)) := none
  inventory_status : Option (List InvStatusRow) := none
deriving DecidableEq, Repr

/-- 5_Demo.py:163-207: the Gold stage.  `sales_metrics` is guarded by
`all(x in self.silver_layer for x in ['sales_orders', 'order_items',
'financial_transactions'])` — note the guard also demands
`financial_transactions`, which the view's computation never uses —
and `inventory_status` by the presence of `inventory_transactions` and
`products`.  A view whose guard fails is simply absent; no error is raised. -/
def processToGold (s : SilverLayer) : GoldLayer :=
  { sales_metrics :=
      match s.sales_orders, s.order_items, s.financial_transactions with
      | some so, some oi, some _ => some (salesMetrics so.valid oi.valid)
      | _, _, _ => none
    inventory_status :=
      match s.inventory_transactions, s.products with
      | some inv, some pr => some (inventoryStatus inv.valid pr.valid)
      | _, _ => none }

/-! ### Concrete example data used by individual witnesses and
counterexamples -/

/-- A well-formed financial transaction (amount 5, paid on the invoice day). -/
def ftRowValid : FinTxRow :=
  { transaction_id := "FT1", order_id := some "SO1", invoice_date := some 0
    payment_date := some 0, amount := some 5 }

/-- A financial transaction with `amount = -5` (the spec's example). -/
def ftRowNegAmount : FinTxRow :=
  { transaction_id := "FT2", order_id := some "SO2", invoice_date := some 0
    payment_date := some 0, amount := some (-5) }

/-- A second well-formed financial transaction, paid 3 days after invoicing. -/
def ftRowLate : FinTxRow :=
  { transaction_id := "FT3", order_id := some "SO3", invoice_date := some 0
    payment_date := some 3, amount := some 7 }

/-- A sales order dated 365 days after processing time 0. -/
def soRowFuture : SalesOrderRow :=
  { order_id := "SO1", customer_id := some "C1", order_date := some 365
    payment_terms := none, department := none, shipping_address := none }

/-- A sales order dated day 5 (between the two processing times of the
clock-dependence counterexample). -/
def soRowDay5 : SalesOrderRow :=
  { order_id := "SO1", customer_id := some "C1", order_date := some 5
    payment_terms := some "Net30", department := some "IT"
    shipping_address := none }

/-- A Silver layer holding only the two join inputs of `sales_metrics`. -/
def silverJoinInputsOnly : SilverLayer :=
  { sales_orders := some ⟨[], [], 100⟩, order_items := some ⟨[], [], 100⟩ }

/-- A Silver layer holding all three sources of the `sales_metrics` guard. -/
def silverAllThree : SilverLayer :=
  { sales_orders := some ⟨[], [], 100⟩, order_items := some ⟨[], [], 100⟩
    financial_transactions := some ⟨[], [], 100⟩ }

/-- A bronze layer holding one sales order dated day 5. -/
def bronzeDay5 : BronzeLayer := { sales_orders := some [soRowDay5] }

/-- A bronze layer holding one sales order with a missing order date. -/
def bronzeNoDate : BronzeLayer :=
  { sales_orders := some
      [{ order_id := "SO1", customer_id := some "C1", order_date := none
         payment_terms := none, department := none, shipping_address := none }] }

/-- Two-department order list for the mass-preservation witness. -/
def ordersW : List SalesOrderRow :=
  [{ order_id := "SO1", customer_id := some "C1", order_date := some 1
     payment_terms := none, department := some "IT", shipping_address := none },
   { order_id := "SO2", customer_id := some "C2", order_date := some 2
     payment_terms := none, department := some "HR", shipping_address := none }]

/-- Item list for the mass-preservation witness: two items on SO1, one on
SO2, one orphan item. -/
def itemsW : List OrderItemRow :=
  [{ order_id := "SO1", product_id := some "P1", line_total := some 10 },
   { order_id := "SO1", product_id := some "P2", line_total := some (5/2) },
   { order_id := "SO2", product_id := some "P1", line_total := some 4 },
   { order_id := "SO9", product_id := some "P3", line_total := some 100 }]

/-- A Silver layer carrying the witness orders and items (plus an empty
financial source to satisfy the Gold guard). -/
def silverW : SilverLayer :=
  { sales_orders := some ⟨ordersW, [], 100⟩
    order_items := some ⟨itemsW, [], 100⟩
    financial_transactions := some ⟨[], [], 100⟩ }

/-! ### Helper lemmas -/

/-- `round(x, 2)` moves a value by at most half a cent. -/
lemma abs_round2_sub (x : ℚ) : |round2 x - x| ≤ 1 / 200 := by
  have h : |100 * x - ((round (100 * x) : ℤ) : ℚ)| ≤ 1 / 2 := abs_sub_round (100 * x)
  rw [abs_sub_comm] at h
  have hx : round2 x - x = (((round (100 * x) : ℤ) : ℚ) - 100 * x) / 100 := by
    unfold round2; ring
  rw [hx, abs_div, show |(100 : ℚ)| = 100 by norm_num]
  linarith

/-! ### C1: stored line_total versus the stored unit_price -/

/-- C1 (counterexample).  The order item generated from master price `1.13`
with quantity 10, discount 0 and price-noise factor `+0.10` (so the noisy
price is `1.243`) stores `line_total = 12.43` (computed from the unrounded
noisy price) but `unit_price = 1.24`; recomputing
`round(quantity * unit_price * (1 - discount), 2)` from the row's own stored
fields gives `12.40`, off by 3 cents — far beyond floating rounding
tolerance.  So the claimed per-row identity fails on noisy rows. -/
theorem order_item_stored_price_mismatch :
    (mkOrderItem "SO1" "P1" (113/100) ⟨10, 0, some (1/10)⟩).quantity = 10 ∧
    (mkOrderItem "SO1" "P1" (113/100) ⟨10, 0, some (1/10)⟩).discount = 0 ∧
    (mkOrderItem "SO1" "P1" (113/100) ⟨10, 0, some (1/10)⟩).unit_price = 124/100 ∧
    (mkOrderItem "SO1" "P1" (113/100) ⟨10, 0, some (1/10)⟩).line_total = 1243/100 ∧
    round2 ((10 : ℚ) * (124/100) * (1 - 0)) = 1240/100 ∧
    (1243/100 : ℚ) ≠ 1240/100 ∧
    |(1243/100 : ℚ) - 1240/100| = 3/100 := by
  refine ⟨rfl, rfl, ?_, ?_, ?_, by norm_num, by rw [abs_of_nonneg (by norm_num)]; norm_num⟩
  · show round2 ((113 : ℚ)/100 * (1 + 1/10)) = 124/100
    norm_num [round2, round_eq]
  · show round2 ((10 : ℚ) * ((113 : ℚ)/100 * (1 + 1/10)) * (1 - 0)) = 1243/100
    norm_num [round2, round_eq]
  · norm_num [round2, round_eq]

/-- C1 (amended).  For every generated order item, `line_total` equals
`round(quantity * p * (1 - discount), 2)` where `p` is the unit price after
noise but BEFORE the 2-decimal rounding applied for storage; consequently the
claimed identity against the stored `unit_price` holds exactly whenever that
pre-storage price already has two decimals — in particular for every row
without price noise, since master prices are created 2-decimal. -/
theorem order_item_line_total_amended (oid pid : String) (basePrice : ℚ)
    (d : ItemDraw) :
    (mkOrderItem oid pid basePrice d).line_total =
      round2 ((d.quantity : ℚ) * effectivePrice basePrice d * (1 - d.discount)) ∧
    (round2 (effectivePrice basePrice d) = effectivePrice basePrice d →
      (mkOrderItem oid pid basePrice d).line_total =
        round2 (((mkOrderItem oid pid basePrice d).quantity : ℚ) *
          (mkOrderItem oid pid basePrice d).unit_price *
          (1 - (mkOrderItem oid pid basePrice d).discount))) := by
  refine ⟨rfl, fun h => ?_⟩
  simp only [mkOrderItem]
  rw [h]

/-- C1 witness: a noise-free item over the 2-decimal master price `2.00`. -/
theorem order_item_line_total_amended_witness :
    round2 (effectivePrice 2 ⟨3, 0, none⟩) = effectivePrice 2 ⟨3, 0, none⟩ ∧
    (mkOrderItem "SO1" "P1" 2 ⟨3, 0, none⟩).line_total =
      round2 (((mkOrderItem "SO1" "P1" 2 ⟨3, 0, none⟩).quantity : ℚ) *
        (mkOrderItem "SO1" "P1" 2 ⟨3, 0, none⟩).unit_price *
        (1 - (mkOrderItem "SO1" "P1" 2 ⟨3, 0, none⟩).discount)) :=
  have h : round2 (effectivePrice 2 ⟨3, 0, none⟩) = effectivePrice 2 ⟨3, 0, none⟩ := by
    norm_num [effectivePrice, round2, round_eq]
  ⟨h, (order_item_line_total_amended "SO1" "P1" 2 ⟨3, 0, none⟩).2 h⟩

/-! ### C2: due_date − invoice_date versus the payment-terms mapping -/

/-- C2 (counterexample).  A Net30 order (term mapping 30) whose invoice date
was shifted forward by 3 days (the probability-0.3 branch at
generator.py:213-214) has `due_date - invoice_date = 27`, not 30: `due_date`
is computed before the shift and never recomputed. -/
theorem due_date_shift_counterexample :
    termDays "Net30" = some 30 ∧
    (ftDates 0 30 ⟨3, 0, 0⟩).2.1 - (ftDates 0 30 ⟨3, 0, 0⟩).1 = 27 ∧
    (27 : ℤ) ≠ 30 := by
  refine ⟨by decide, by norm_num [ftDates], by norm_num⟩

/-- C2 (amended).  For every generated financial transaction,
`due_date - invoice_date = termDays(payment_terms) - shift`, where `shift` is
the forward invoice shift (0 when the shift branch did not fire); the
difference equals the term mapping exactly when no shift was applied. -/
theorem due_date_term_minus_shift (orderDate : ℤ) (t : String) (n : ℕ)
    (h : termDays t = some n) (d : FTDraw) :
    (ftDates orderDate n d).2.1 - (ftDates orderDate n d).1 =
      (n : ℤ) - (d.shiftDays : ℤ) ∧
    ((ftDates orderDate n d).2.1 - (ftDates orderDate n d).1 = (n : ℤ) ↔
      d.shiftDays = 0) := by
  simp only [ftDates]
  constructor
  · ring
  · omega

/-- C2 witness: an Immediate-terms order with a 2-day invoice shift. -/
theorem due_date_term_minus_shift_witness :
    (ftDates 100 0 ⟨2, 0, 0⟩).2.1 - (ftDates 100 0 ⟨2, 0, 0⟩).1 = -2 ∧
    ¬((ftDates 100 0 ⟨2, 0, 0⟩).2.1 - (ftDates 100 0 ⟨2, 0, 0⟩).1 = 0) := by
  have h := due_date_term_minus_shift 100 "Immediate" 0 (by decide) ⟨2, 0, 0⟩
  refine ⟨by rw [h.1]; norm_num, fun hc => ?_⟩
  have := h.2.mp (by rw [hc]; norm_num)
  simp at this

/-! ### C8: split amounts sum to the pre-split amount -/

/-- C8 (confirmed).  Whenever the generator splits an amount (the branch fires
only for `amount > 1000`, with `split_ratio = random.uniform(0.3, 0.7)`), the
two stored 2-decimal-rounded amounts sum to the pre-split amount within one
cent. -/
theorem split_amounts_within_cent (amount ratio : ℚ) (hamt : 1000 < amount)
    (hr : ratio ∈ Set.Icc (3/10 : ℚ) (7/10)) :
    |(splitAmounts amount ratio).1 + (splitAmounts amount ratio).2 - amount| ≤
      1/100 := by
  have h1 := abs_round2_sub (amount * ratio)
  have h2 := abs_round2_sub (amount * (1 - ratio))
  have key : (splitAmounts amount ratio).1 + (splitAmounts amount ratio).2 - amount =
      (round2 (amount * ratio) - amount * ratio) +
        (round2 (amount * (1 - ratio)) - amount * (1 - ratio)) := by
    simp only [splitAmounts]
    ring
  rw [key]
  calc |(round2 (amount * ratio) - amount * ratio) +
          (round2 (amount * (1 - ratio)) - amount * (1 - ratio))| ≤
        |round2 (amount * ratio) - amount * ratio| +
          |round2 (amount * (1 - ratio)) - amount * (1 - ratio)| := abs_add _ _
    _ ≤ 1/200 + 1/200 := add_le_add h1 h2
    _ = 1/100 := by norm_num

/-- C8 witness: amount 2000 split evenly. -/
theorem split_amounts_within_cent_witness :
    (1000 : ℚ) < 2000 ∧
    |(splitAmounts 2000 (1/2)).1 + (splitAmounts 2000 (1/2)).2 - 2000| ≤ 1/100 :=
  ⟨by norm_num,
    split_amounts_within_cent 2000 (1/2) (by norm_num)
      (Set.mem_Icc.mpr ⟨by norm_num, by norm_num⟩)⟩

/-! ### C9: payment dates never precede due dates -/

/-- C9 (confirmed).  Payment delays are drawn from the nonnegative set
`{0, 5, 10, 15, 30}` and the second split record only adds further days, so
every generated transaction has `payment_date ≥ due_date`; hence
`payment_date < invoice_date` requires a strictly positive forward invoice
shift — it can never arise from an early payment. -/
theorem payment_after_due (orderDate : ℤ) (term : ℕ) (d : FTDraw)
    (hdelay : d.delay ∈ [0, 5, 10, 15, 30]) :
    (ftDates orderDate term d).2.1 ≤ (ftDates orderDate term d).2.2 ∧
    ((ftDates orderDate term d).2.2 < (ftDates orderDate term d).1 →
      0 < d.shiftDays) := by
  simp only [ftDates]
  omega

/-- C9 witness: a Net30 order paid 5 days late, never shifted. -/
theorem payment_after_due_witness :
    (ftDates 0 30 ⟨0, 5, 0⟩).2.1 ≤ (ftDates 0 30 ⟨0, 5, 0⟩).2.2 ∧
    ((ftDates 0 30 ⟨0, 5, 0⟩).2.2 < (ftDates 0 30 ⟨0, 5, 0⟩).1 →
      0 < (⟨0, 5, 0⟩ : FTDraw).shiftDays) :=
  payment_after_due 0 30 ⟨0, 5, 0⟩ (by decide)

/-! ### C10: payment_terms and department are always populated -/

/-- C10 (confirmed).  Every generated sales order copies `payment_terms` and
`department` from the sampled customer, even when the fault branch nulls
`customer_id` and the shipping fields; since customer `payment_terms` are
drawn from the fixed four-element list, the payment-terms dictionary lookup
in financial-transaction generation always succeeds, and both columns are
non-null, so the Gold department grouping never drops an order row. -/
theorem sales_order_terms_department_total (c : CustomerRow) (fault : Bool)
    (oid : String) (odate : ℤ) (hpt : c.payment_terms ∈ paymentTermsChoices) :
    (mkSalesOrder c fault oid odate).payment_terms = some c.payment_terms ∧
    (mkSalesOrder c fault oid odate).department = some c.department ∧
    (∃ n, termDays c.payment_terms = some n) ∧
    (mkSalesOrder c fault oid odate).payment_terms.isSome = true ∧
    (mkSalesOrder c fault oid odate).department.isSome = true := by
  refine ⟨rfl, rfl, ?_, rfl, rfl⟩
  simp only [paymentTermsChoices, List.mem_cons, List.not_mem_nil, or_false] at hpt
  rcases hpt with h | h | h | h <;> rw [h]
  · exact ⟨30, by decide⟩
  · exact ⟨60, by decide⟩
  · exact ⟨0, by decide⟩
  · exact ⟨45, by decide⟩

/-- C10 witness: a customer with Net45 terms, order hit by the customer-data
fault branch. -/
theorem sales_order_terms_department_total_witness :
    (mkSalesOrder ⟨"C1", "A", "B", "C", "Net45", "IT"⟩ true "SO1" 10).payment_terms =
        some "Net45" ∧
    (mkSalesOrder ⟨"C1", "A", "B", "C", "Net45", "IT"⟩ true "SO1" 10).department =
        some "IT" ∧
    (∃ n, termDays "Net45" = some n) :=
  have h := sales_order_terms_department_total ⟨"C1", "A", "B", "C", "Net45", "IT"⟩
    true "SO1" 10 (by decide)
  ⟨h.1, h.2.1, h.2.2.1⟩

/-! ### C3: validation rate and the empty-source division -/

/-- C3 (counterexample).  On an empty bronze table the Silver stage computes
`len(df) / len(bronze_data['data']) * 100` with a zero denominator: the
division raises `ZeroDivisionError`, which the stage's `except` clause logs
and re-raises — the stage aborts rather than reporting 0 or skipping the
source. -/
theorem silver_empty_bronze_error :
    processSource (soInvalid 0) ([] : List SalesOrderRow) =
      Except.error "ZeroDivisionError" := rfl

/-- C3 (amended).  For every nonempty bronze table the Silver stage succeeds
and records `validation_rate = 100 * valid_count / bronze_count ∈ [0, 100]`;
on an empty bronze table the division raises and the stage aborts (the
counterexample theorem), instead of handling the undefined rate. -/
theorem silver_validation_rate_bounds {α : Type} (pred : α → Bool)
    (bronze : List α) (h : bronze ≠ []) :
    ∃ e, processSource pred bronze = Except.ok e ∧
      e.valid = bronze.filter (fun r => !(pred r)) ∧
      e.validation_rate = 100 * (e.valid.length : ℚ) / (bronze.length : ℚ) ∧
      0 ≤ e.validation_rate ∧ e.validation_rate ≤ 100 := by
  have hlen : bronze.length ≠ 0 := fun hc => h (List.length_eq_zero.mp hc)
  have hbpos : (0 : ℚ) < (bronze.length : ℚ) := by
    exact_mod_cast Nat.pos_of_ne_zero hlen
  have hok : processSource pred bronze = Except.ok
      { valid := bronze.filter (fun r => !(pred r))
        invalid := bronze.filter pred
        validation_rate := ((bronze.filter (fun r => !(pred r))).length : ℚ) /
          (bronze.length : ℚ) * 100 } := by
    unfold processSource
    rw [if_neg hlen]
  refine ⟨_, hok, rfl, by ring, ?_, ?_⟩
  · show (0 : ℚ) ≤ ((bronze.filter (fun r => !(pred r))).length : ℚ) /
      (bronze.length : ℚ) * 100
    positivity
  · show ((bronze.filter (fun r => !(pred r))).length : ℚ) /
      (bronze.length : ℚ) * 100 ≤ 100
    have hv : ((bronze.filter (fun r => !(pred r))).length : ℚ) ≤
        (bronze.length : ℚ) := by
      exact_mod_cast List.length_filter_le _ _
    have hdiv : ((bronze.filter (fun r => !(pred r))).length : ℚ) /
        (bronze.length : ℚ) ≤ 1 := div_le_one_of_le₀ hv hbpos.le
    calc ((bronze.filter (fun r => !(pred r))).length : ℚ) /
          (bronze.length : ℚ) * 100 ≤ 1 * 100 := by linarith
      _ = 100 := by norm_num

/-- C3 witness: a one-row bronze table (the row is valid, rate 100). -/
theorem silver_validation_rate_bounds_witness :
    ∃ e, processSource ftInvalid [ftRowValid] = Except.ok e ∧
      e.valid = [ftRowValid].filter (fun r => !(ftInvalid r)) ∧
      e.validation_rate =
        100 * (e.valid.length : ℚ) / (([ftRowValid] : List FinTxRow).length : ℚ) ∧
      0 ≤ e.validation_rate ∧ e.validation_rate ≤ 100 :=
  silver_validation_rate_bounds ftInvalid [ftRowValid] (by simp)

/-! ### C4: the guard of the Gold sales_metrics view -/

/-- C4 (counterexample).  A Silver layer holding `sales_orders` and
`order_items` — the two inputs of the left join — but no
`financial_transactions` does NOT get a `sales_metrics` view: the guard at
5_Demo.py:170 also demands `financial_transactions`, although the view's
computation never reads it. -/
theorem gold_guard_requires_financial :
    (processToGold silverJoinInputsOnly).sales_metrics = none ∧
    silverJoinInputsOnly.sales_orders.isSome = true ∧
    silverJoinInputsOnly.order_items.isSome = true ∧
    silverJoinInputsOnly.financial_transactions = none :=
  ⟨rfl, rfl, rfl, rfl⟩

/-- C4 (amended).  The Gold stage computes `sales_metrics` iff all three of
`sales_orders`, `order_items` AND `financial_transactions` are present in the
Silver layer (the guard lists `financial_transactions` although the join uses
only the other two); when the guard fails the view is simply absent —
`processToGold` is total, no error is raised. -/
theorem gold_sales_metrics_guard_iff (s : SilverLayer) :
    ((processToGold s).sales_metrics.isSome = true ↔
      (s.sales_orders.isSome = true ∧ s.order_items.isSome = true ∧
        s.financial_transactions.isSome = true)) ∧
    (∀ so oi ft, s.sales_orders = some so → s.order_items = some oi →
      s.financial_transactions = some ft →
      (processToGold s).sales_metrics = some (salesMetrics so.valid oi.valid)) := by
  obtain ⟨so, oi, ft, inv, pr, cu⟩ := s
  constructor
  · cases so <;> cases oi <;> cases ft <;> simp [processToGold]
  · intro so' oi' ft' h1 h2 h3
    simp only at h1 h2 h3
    subst h1; subst h2; subst h3
    simp [processToGold]

/-- C4 witness: all three sources present yields the computed view. -/
theorem gold_sales_metrics_guard_iff_witness :
    (processToGold silverAllThree).sales_metrics = some (salesMetrics [] []) :=
  (gold_sales_metrics_guard_iff silverAllThree).2 ⟨[], [], 100⟩ ⟨[], [], 100⟩
    ⟨[], [], 100⟩ rfl rfl rfl

/-! ### C7: the Silver validation predicates and the partition -/

/-- Valid and invalid partitions of `processSource` split the bronze rows
exactly: occurrence counts add up. -/
lemma count_filter_partition {α : Type} [DecidableEq α] (pred : α → Bool)
    (l : List α) (r : α) :
    (l.filter (fun a => !(pred a))).count r + (l.filter pred).count r =
      l.count r := by
  induction l with
  | nil => simp
  | cons a t ih =>
    by_cases h : pred a
    · simp only [List.filter_cons, h, Bool.not_true, List.count_cons, cond_false,
        cond_true, if_true, if_false]
      simp [List.count_cons, h, ih.symm]
      omega
    · simp only [List.filter_cons, h, List.count_cons]
      simp [List.count_cons, h, ih.symm, List.filter_cons]
      omega

/-- C7 (confirmed).  The Silver predicates: a `sales_orders` row is invalid
iff `order_date` is missing, `customer_id` is missing, or `order_date` lies
after processing time; a `financial_transactions` row is invalid iff
`payment_date < invoice_date` (both present — pandas comparisons with `NaT`
are false), `amount` is missing, or `amount ≤ 0`.  Every bronze row lands in
exactly one partition (counts add).  In particular an order dated 365 days in
the future and a transaction with `amount = -5` are invalid. -/
theorem silver_validation_rules :
    (∀ (now : ℤ) (r : SalesOrderRow), soInvalid now r = true ↔
      (r.order_date = none ∨ r.customer_id = none ∨
        ∃ d, r.order_date = some d ∧ now < d)) ∧
    (∀ r : FinTxRow, ftInvalid r = true ↔
      ((∃ p i, r.payment_date = some p ∧ r.invoice_date = some i ∧ p < i) ∨
        r.amount = none ∨ ∃ a, r.amount = some a ∧ a ≤ 0)) ∧
    (∀ (now : ℤ) (l : List SalesOrderRow) e,
      processSource (soInvalid now) l = Except.ok e →
      ∀ r, e.valid.count r + e.invalid.count r = l.count r) ∧
    (∀ (l : List FinTxRow) e, processSource ftInvalid l = Except.ok e →
      ∀ r, e.valid.count r + e.invalid.count r = l.count r) ∧
    (∀ (now : ℤ) (r : SalesOrderRow), r.order_date = some (now + 365) →
      soInvalid now r = true) ∧
    (∀ r : FinTxRow, r.amount = some (-5) → ftInvalid r = true) := by
  refine ⟨?_, ?_, ?_, ?_, ?_, ?_⟩
  · intro now r
    obtain ⟨oid, cid, od, pt, dep, sa⟩ := r
    cases od <;> cases cid <;> simp [soInvalid]
  · intro r
    obtain ⟨tid, oid, inv, pay, amt⟩ := r
    cases inv <;> cases pay <;> cases amt <;> simp [ftInvalid]
  · intro now l e he r
    unfold processSource at he
    by_cases hl : l.length = 0
    · rw [if_pos hl] at he; cases he
    · rw [if_neg hl] at he
      cases he
      exact count_filter_partition (soInvalid now) l r
  · intro l e he r
    unfold processSource at he
    by_cases hl : l.length = 0
    · rw [if_pos hl] at he; cases he
    · rw [if_neg hl] at he
      cases he
      exact count_filter_partition ftInvalid l r
  · intro now r hr
    simp [soInvalid, hr]
  · intro r hr
    simp [ftInvalid, hr]

/-- C7 witness: a two-row `financial_transactions` table containing the
`amount = -5` transaction partitions with one valid and one invalid row, and
the two scenario rows are classified invalid. -/
theorem silver_validation_rules_witness :
    soInvalid 0 soRowFuture = true ∧
    ftInvalid ftRowNegAmount = true ∧
    (∀ r : FinTxRow,
      (([ftRowNegAmount, ftRowLate]).filter (fun x => !(ftInvalid x))).count r +
        (([ftRowNegAmount, ftRowLate]).filter ftInvalid).count r =
        ([ftRowNegAmount, ftRowLate]).count r) := by
  refine ⟨silver_validation_rules.2.2.2.2.1 0 soRowFuture rfl,
    silver_validation_rules.2.2.2.2.2 ftRowNegAmount rfl, fun r => ?_⟩
  have h := silver_validation_rules.2.2.2.1 [ftRowNegAmount, ftRowLate] _ rfl r
  simpa [processSource] using h

/-! ### C5: determinism and wall-clock dependence -/

/-- C5 (counterexample).  The `sales_orders` validity predicate compares
`order_date` against `pd.Timestamp.now()`, so the valid/invalid partition —
an output value, not metadata — depends on wall-clock time: a run at time 0
classifies an order dated day 5 invalid, a rerun at time 10 classifies it
valid, so the two runs' Silver outputs differ. -/
theorem silver_wall_clock_dependence :
    (processToSilver 0 bronzeDay5).toOption.map (fun s => s.sales_orders) ≠
      (processToSilver 10 bronzeDay5).toOption.map (fun s => s.sales_orders) := by
  simp only [bronzeDay5, processToSilver, processOpt, processSource, bind,
    Except.bind, Except.map, soRowDay5, soInvalid]
  decide

/-- C5 (amended).  The processing time read by the `sales_orders` predicate
is the pipeline's only time dependence: for two runs at times `now₁`, `now₂`
on the same bronze input, if every `sales_orders` row classifies identically
at the two times (in particular whenever `now₁ = now₂`, i.e. a rerun at the
same processing time), then the entire Silver layers — all valid/invalid
partitions and validation rates — and the Gold views of the two runs are
identical. -/
theorem pipeline_time_dependence_only_via_now (now1 now2 : ℤ) (b : BronzeLayer)
    (h : ∀ l, b.sales_orders = some l →
      ∀ r ∈ l, soInvalid now1 r = soInvalid now2 r) :
    processToSilver now1 b = processToSilver now2 b ∧
    (processToSilver now1 b).map processToGold =
      (processToSilver now2 b).map processToGold := by
  have key : processOpt (soInvalid now1) b.sales_orders =
      processOpt (soInvalid now2) b.sales_orders := by
    cases hb : b.sales_orders with
    | none => rfl
    | some l =>
      have hr : ∀ r ∈ l, soInvalid now1 r = soInvalid now2 r := h l hb
      have hfilt1 : l.filter (fun r => !(soInvalid now1 r)) =
          l.filter (fun r => !(soInvalid now2 r)) :=
        List.filter_congr (fun r hrm => by rw [hr r hrm])
      have hfilt2 : l.filter (soInvalid now1) = l.filter (soInvalid now2) :=
        List.filter_congr (fun r hrm => hr r hrm)
      simp only [processOpt, processSource, hfilt1, hfilt2]
  have heq : processToSilver now1 b = processToSilver now2 b := by
    unfold processToSilver
    rw [key]
  exact ⟨heq, by rw [heq]⟩

/-- C5 witness: rerunning at times 0 and 100 on a bronze layer whose single
order has a missing date (invalid at every processing time) gives identical
outputs. -/
theorem pipeline_time_dependence_only_via_now_witness :
    processToSilver 0 bronzeNoDate = processToSilver 100 bronzeNoDate ∧
    (processToSilver 0 bronzeNoDate).map processToGold =
      (processToSilver 100 bronzeNoDate).map processToGold :=
  pipeline_time_dependence_only_via_now 0 100 bronzeNoDate (by
    intro l hl r hr
    simp only [bronzeNoDate, Option.some.injEq] at hl
    subst hl
    simp only [List.mem_singleton] at hr
    subst hr
    rfl)

/-! ### C6: aggregation preserves total sales mass -/

/-- Splitting a list by a Boolean predicate splits the sum of a mapped
value. -/
lemma sum_map_filter_split {α : Type} (l : List α) (p : α → Bool) (f : α → ℚ) :
    ((l.filter p).map f).sum + ((l.filter (fun x => !(p x))).map f).sum =
      (l.map f).sum := by
  induction l with
  | nil => simp
  | cons a t ih =>
    by_cases h : p a <;> simp [List.filter_cons, h] <;> linarith [ih]

/-- Summing group by group, over a duplicate-free key list covering every
element, equals summing over the whole list. -/
lemma sum_over_groups {α β : Type} [DecidableEq β] (key : α → β) (f : α → ℚ)
    (ks : List β) (l : List α) (hnd : ks.Nodup) (hcov : ∀ x ∈ l, key x ∈ ks) :
    (ks.map (fun b => ((l.filter (fun x => key x = b)).map f).sum)).sum =
      (l.map f).sum := by
  induction ks generalizing l with
  | nil =>
    cases l with
    | nil => simp
    | cons a t => exact absurd (hcov a (List.mem_cons_self a t)) (List.not_mem_nil _)
  | cons b ks ih =>
    have hb : b ∉ ks := (List.nodup_cons.mp hnd).1
    have hnd' : ks.Nodup := (List.nodup_cons.mp hnd).2
    have hgrp : ∀ b' ∈ ks,
        l.filter (fun x => key x = b') =
          (l.filter (fun x => !(key x = b))).filter (fun x => key x = b') := by
      intro b' hb'
      rw [List.filter_filter]
      apply List.filter_congr
      intro x _
      by_cases hxb : key x = b'
      · have hne : ¬(key x = b) := fun hc => hb ((hxb.symm.trans hc) ▸ hb')
        simp [hxb, hne]
        exact fun hc => hne (hxb.trans hc)
      · simp [hxb]
    have hcov' : ∀ x ∈ l.filter (fun x => !(key x = b)), key x ∈ ks := by
      intro x hx
      obtain ⟨hxl, hxb⟩ := List.mem_filter.mp hx
      have hxb' : ¬(key x = b) := by simpa using hxb
      rcases List.mem_cons.mp (hcov x hxl) with h | h
      · exact absurd h hxb'
      · exact h
    have hmapeq : ks.map (fun b' => ((l.filter (fun x => key x = b')).map f).sum) =
        ks.map (fun b' => (((l.filter (fun x => !(key x = b))).filter
          (fun x => key x = b')).map f).sum) := by
      apply List.map_congr_left
      intro b' hb'
      rw [hgrp b' hb']
    calc ((b :: ks).map (fun b' => ((l.filter (fun x => key x = b')).map f).sum)).sum
        = ((l.filter (fun x => key x = b)).map f).sum +
            (ks.map (fun b' => ((l.filter (fun x => key x = b')).map f).sum)).sum := by
          simp
      _ = ((l.filter (fun x => key x = b)).map f).sum +
            ((l.filter (fun x => !(key x = b))).map f).sum := by
          rw [hmapeq, ih (l.filter (fun x => !(key x = b))) hnd' hcov']
      _ = (l.map f).sum := sum_map_filter_split l (fun x => key x = b) f

/-- `optSum` is the sum of the column with missing cells read as 0. -/
lemma optSum_eq_sum_getD (l : List (Option ℚ)) :
    optSum l = (l.map (fun o => o.getD 0)).sum := by
  induction l with
  | nil => rfl
  | cons a t ih => cases a <;> simp [optSum, List.filterMap_cons] at ih ⊢ <;> simp [ih]

/-- Sum of a mapped value over a flatMap, accumulated block by block. -/
lemma sum_map_flatMap {α γ : Type} (l : List α) (F : α → List γ) (f : γ → ℚ) :
    ((l.flatMap F).map f).sum = (l.map (fun a => ((F a).map f).sum)).sum := by
  induction l with
  | nil => simp
  | cons a t ih => simp [List.flatMap_cons, ih]

/-- Filtering by a disjunction of mutually exclusive predicates splits the
sum. -/
lemma sum_filter_or {α : Type} (l : List α) (p q : α → Bool) (f : α → ℚ)
    (hpq : ∀ x ∈ l, p x = true → q x = false) :
    ((l.filter (fun x => p x || q x)).map f).sum =
      ((l.filter p).map f).sum + ((l.filter q).map f).sum := by
  induction l with
  | nil => simp
  | cons a t ih =>
    have ih' := ih (fun x hx => hpq x (List.mem_cons_of_mem a hx))
    by_cases hp : p a
    · have hq : q a = false := hpq a (List.mem_cons_self a t) hp
      simp [List.filter_cons, hp, hq, ih']
      ring
    · by_cases hq : q a
      · simp [List.filter_cons, hp, hq, ih']
        linarith
      · simp [List.filter_cons, hp, hq, ih']

/-- The left component of every joined row is one of the orders. -/
lemma mem_leftJoin_fst (orders : List SalesOrderRow) (items : List OrderItemRow)
    (r : SalesOrderRow × Option OrderItemRow) (hr : r ∈ leftJoinRows orders items) :
    r.1 ∈ orders := by
  simp only [leftJoinRows, List.mem_flatMap] at hr
  obtain ⟨o, ho, hro⟩ := hr
  split at hro
  · simp only [List.mem_singleton] at hro
    rw [hro]
    exact ho
  · obtain ⟨it, _, hit⟩ := List.mem_map.mp hro
    rw [← hit]
    exact ho

/-- Summing the per-order item totals over orders with pairwise-distinct ids
equals summing over the items matched by some order. -/
lemma sum_matched_split (items : List OrderItemRow) (orders : List SalesOrderRow)
    (hnd : (orders.map (fun o => o.order_id)).Nodup) :
    (orders.map (fun o => ((items.filter (fun it => it.order_id = o.order_id)).map
        (fun it => it.line_total.getD 0)).sum)).sum =
      ((items.filter (fun it =>
        orders.any (fun o => it.order_id = o.order_id))).map
          (fun it => it.line_total.getD 0)).sum := by
  induction orders with
  | nil => simp
  | cons o os ih =>
    rw [List.map_cons] at hnd
    have hnotin : o.order_id ∉ os.map (fun o' => o'.order_id) :=
      (List.nodup_cons.mp hnd).1
    have ih' := ih (List.nodup_cons.mp hnd).2
    have hexcl : ∀ it ∈ items, (decide (it.order_id = o.order_id)) = true →
        os.any (fun o' => it.order_id = o'.order_id) = false := by
      intro it _ hp
      have hp' : it.order_id = o.order_id := of_decide_eq_true hp
      rw [List.any_eq_false]
      intro o' ho'
      intro hc
      have hc' : it.order_id = o'.order_id := of_decide_eq_true hc
      exact hnotin (List.mem_map.mpr ⟨o', ho', by rw [← hc', hp']⟩)
    have hsplit := sum_filter_or items (fun it => it.order_id = o.order_id)
      (fun it => os.any (fun o' => it.order_id = o'.order_id))
      (fun it => it.line_total.getD 0) hexcl
    have hpred : items.filter (fun it =>
        (o :: os).any (fun o' => it.order_id = o'.order_id)) =
        items.filter (fun it => (decide (it.order_id = o.order_id)) ||
          os.any (fun o' => it.order_id = o'.order_id)) := by
      apply List.filter_congr
      intro it _
      simp [List.any_cons]
    rw [List.map_cons, List.sum_cons, ih', hpred, hsplit]

/-- The Gold department aggregation preserves total sales mass: the view's
`total_sales` values sum to the sum of `line_total` over the items matched by
some order, provided order ids are pairwise distinct (the data model's key
constraint) and every order has a department (as the generator guarantees). -/
lemma salesMetrics_mass (orders : List SalesOrderRow) (items : List OrderItemRow)
    (hnd : (orders.map (fun o => o.order_id)).Nodup)
    (hdep : ∀ o ∈ orders, o.department.isSome = true) :
    ((salesMetrics orders items).map (fun x => x.2.2)).sum =
      optSum ((items.filter (fun it =>
        orders.any (fun o => it.order_id = o.order_id))).map
          (fun it => it.line_total)) := by
  have hcov : ∀ x ∈ leftJoinRows orders items,
      (fun r : SalesOrderRow × Option OrderItemRow => r.1.department) x ∈
        ((leftJoinRows orders items).filterMap
          (fun r => r.1.department)).dedup.map some := by
    intro x hx
    obtain ⟨d, hd⟩ := Option.isSome_iff_exists.mp
      (hdep x.1 (mem_leftJoin_fst orders items x hx))
    simp only [hd]
    exact List.mem_map_of_mem some
      (List.mem_dedup.mpr (List.mem_filterMap.mpr ⟨x, hx, hd⟩))
  have hknd : (((leftJoinRows orders items).filterMap
      (fun r => r.1.department)).dedup.map some).Nodup :=
    (List.nodup_dedup _).map (Option.some_injective _)
  have hgroups := sum_over_groups
    (fun r : SalesOrderRow × Option OrderItemRow => r.1.department)
    (fun r => (joinedLineTotal r).getD 0)
    (((leftJoinRows orders items).filterMap (fun r => r.1.department)).dedup.map some)
    (leftJoinRows orders items) hknd hcov
  have hflat := sum_map_flatMap orders
    (fun o =>
      let ms := items.filter (fun it => it.order_id = o.order_id)
      if ms.isEmpty then [(o, (none : Option OrderItemRow))]
      else ms.map (fun it => (o, some it)))
    (fun r => (joinedLineTotal r).getD 0)
  have hper : ∀ o ∈ orders,
      (((let ms := items.filter (fun it => it.order_id = o.order_id)
        if ms.isEmpty then [(o, (none : Option OrderItemRow))]
        else ms.map (fun it => (o, some it))).map
          (fun r => (joinedLineTotal r).getD 0)).sum) =
      ((items.filter (fun it => it.order_id = o.order_id)).map
        (fun it => it.line_total.getD 0)).sum := by
    intro o _
    by_cases hms : (items.filter (fun it => it.order_id = o.order_id)).isEmpty
    · rw [List.isEmpty_iff] at hms
      simp [hms, joinedLineTotal]
    · simp [hms, List.map_map]
      exact congrArg List.sum (List.map_congr_left (fun it _ => rfl))
  calc ((salesMetrics orders items).map (fun x => x.2.2)).sum
      = ((((leftJoinRows orders items).filterMap
            (fun r => r.1.department)).dedup.map some).map
          (fun b => (((leftJoinRows orders items).filter
            (fun r => r.1.department = b)).map
              (fun r => (joinedLineTotal r).getD 0)).sum)).sum := by
        simp only [salesMetrics, List.map_map, optSum_eq_sum_getD]
        exact congrArg List.sum (List.map_congr_left (fun d _ => rfl))
    _ = ((leftJoinRows orders items).map
          (fun r => (joinedLineTotal r).getD 0)).sum := hgroups
    _ = (orders.map (fun o =>
          ((items.filter (fun it => it.order_id = o.order_id)).map
            (fun it => it.line_total.getD 0)).sum)).sum := by
        rw [leftJoinRows, hflat]
        exact congrArg List.sum (List.map_congr_left hper)
    _ = ((items.filter (fun it =>
          orders.any (fun o => it.order_id = o.order_id))).map
            (fun it => it.line_total.getD 0)).sum :=
        sum_matched_split items orders hnd
    _ = optSum ((items.filter (fun it =>
          orders.any (fun o => it.order_id = o.order_id))).map
            (fun it => it.line_total)) := by
        rw [optSum_eq_sum_getD, List.map_map]
        rfl

/-- C6 (confirmed).  The `total_sales` of the Gold `sales_metrics` view,
summed over all departments, equals the sum of `line_total` over the valid
order items whose `order_id` matches a valid sales order — the left join plus
department aggregation preserves total sales mass (under the data model's
uniqueness of `order_id` and the generator's non-null departments). -/
theorem gold_sales_mass_preserved (s : SilverLayer) (so : SilverEntry SalesOrderRow)
    (oi : SilverEntry OrderItemRow) (m : List (String × ℕ × ℚ))
    (hso : s.sales_orders = some so) (hoi : s.order_items = some oi)
    (hft : s.financial_transactions.isSome = true)
    (hm : (processToGold s).sales_metrics = some m)
    (hnd : (so.valid.map (fun o => o.order_id)).Nodup)
    (hdep : ∀ o ∈ so.valid, o.department.isSome = true) :
    (m.map (fun x => x.2.2)).sum =
      optSum ((oi.valid.filter (fun it =>
        so.valid.any (fun o => it.order_id = o.order_id))).map
          (fun it => it.line_total)) := by
  obtain ⟨s_so, s_oi, s_ft, s_inv, s_pr, s_cu⟩ := s
  simp only at hso hoi hft hm
  subst hso
  subst hoi
  obtain ⟨ftE, hftE⟩ := Option.isSome_iff_exists.mp hft
  subst hftE
  simp only [processToGold, Option.some.injEq] at hm
  subst hm
  exact salesMetrics_mass so.valid oi.valid hnd hdep

/-- C6 witness: two departments, three matched items, one orphan item. -/
theorem gold_sales_mass_preserved_witness :
    ((salesMetrics ordersW itemsW).map (fun x => x.2.2)).sum =
      optSum ((itemsW.filter (fun it =>
        ordersW.any (fun o => it.order_id = o.order_id))).map
          (fun it => it.line_total)) :=
  gold_sales_mass_preserved silverW ⟨ordersW, [], 100⟩ ⟨itemsW, [], 100⟩
    (salesMetrics ordersW itemsW) rfl rfl rfl rfl (by decide) (by decide)

end CaseStudy
